import Mathlib

/-! The dingtalk alert service of kapacitor.

A shallow embedding of `services/dingtalk/config.go` and
`services/dingtalk/service.go`.

Conventions of the embedding.

* A Go `string` is a Lean `String` (the valid UTF-8 strings).
* A Go `error` is a value of `GoError`, one constructor per place where the
  package builds an error, plus `GoError.lib` for errors handed over by a
  library (`errors.New`, the HTTP client, the body reader). `nil` is `none`.
* The store behind `*Service` is passed explicitly: a method that writes
  returns the new `Service`.
* What a call does to the outside world is recorded as a list of `Event`s.
* A call either returns or panics: `Outcome`.
* The network (`http.DefaultClient.Do`) and the JSON decoder on a non-empty
  input are arguments of `Send`.
-/

namespace Dingtalk

/-! ## config.go -/

/-- The `Config` struct. -/
structure Config where
  Enabled : Bool
  AccessToken : String
deriving DecidableEq, Repr

/-- A Go `error` value. -/
inductive GoError where
  /-- An error made by a library, known by its message only. -/
  | lib (msg : String)
  /-- The result of `fmt.Errorf("expected only one new config object, got %d", l)`. -/
  | expectedOne (l : Nat)
  /-- The result of `fmt.Errorf("expected config object to be of type %T, got %T", c, newConfig[0])`,
  with the name of the dynamic type of `newConfig[0]`. -/
  | expectedType (got : String)
  /-- The result of `fmt.Errorf("unexpected options type %T", options)`. -/
  | unexpectedOptions (got : String)
  /-- The result of `fmt.Errorf("failed to understand Dingtalk response (err: %s). code: %d content: %s", ...)`. -/
  | understand (err : String) (code : Int) (content : String)
  /-- The result of `fmt.Errorf("sendMessage error (%d) description: %s", res.ErrCode, res.ErrMsg)`. -/
  | sendMessage (errCode : Int) (errMsg : String)
deriving DecidableEq, Repr

/-- The method `Error()` of an error: its message. -/
def GoError.Error : GoError → String
  | .lib msg => msg
  | .expectedOne l => "expected only one new config object, got " ++ toString l
  | .expectedType got => "expected config object to be of type dingtalk.Config, got " ++ got
  | .unexpectedOptions got => "unexpected options type " ++ got
  | .understand err code content =>
      "failed to understand Dingtalk response (err: " ++ err ++ "). code: " ++ toString code
        ++ " content: " ++ content
  | .sendMessage errCode errMsg =>
      "sendMessage error (" ++ toString errCode ++ ") description: " ++ errMsg

/-- The function `NewConfig`: only `Enabled` is set, the token is the zero value. -/
def NewConfig : Config :=
  { Enabled := true, AccessToken := "" }

/-- The method `Config.Validate`. -/
def Config.Validate (c : Config) : Option GoError :=
  if c.Enabled then
    if c.AccessToken = "" then
      some (GoError.lib "must specify token")
    else
      none
  else
    none

/-! ## service.go: the service and its configuration -/

/-- The constant `DefaultDingtalkURL`. -/
def DefaultDingtalkURL : String := "https://oapi.dingtalk.com/robot/send"

/-- A `keyvalue.T`. -/
structure KV where
  Key : String
  Value : String
deriving DecidableEq, Repr

/-- A value behind the interface `Diagnostic`, known by the context it has been given. -/
structure Diagnostic where
  ctx : List KV
deriving DecidableEq, Repr

/-- The method `WithContext` of a `Diagnostic`. -/
def Diagnostic.WithContext (d : Diagnostic) (ctx : List KV) : Diagnostic :=
  { ctx := d.ctx ++ ctx }

/-- The `Service` struct; `configValue` only ever holds a `Config`. -/
structure Service where
  configValue : Config
  diag : Diagnostic
deriving DecidableEq, Repr

/-- The function `NewService`. -/
def NewService (c : Config) (d : Diagnostic) : Service :=
  { configValue := c, diag := d }

/-- The method `Service.config`. -/
def Service.config (s : Service) : Config :=
  s.configValue

/-- The `testOptions` struct. -/
structure testOptions where
  Message : String
  AccessToken : String
deriving DecidableEq, Repr

/-- A value of type `interface{}`, by its dynamic type: a `Config`, a `*testOptions`
(never nil: the type is unexported and `TestOptions` is its only producer), or a value
of any other type, known by the name `%T` prints. -/
inductive Value where
  | config (c : Config)
  | testOptionsPtr (o : testOptions)
  | other (typeName : String)
deriving DecidableEq, Repr

/-- What `%T` prints for a value. -/
def Value.typeName : Value → String
  | .config _ => "dingtalk.Config"
  | .testOptionsPtr _ => "*dingtalk.testOptions"
  | .other t => t

/-- The method `Service.Update`: the new state of the service and the returned error.
The length test and the type assertion on `newConfig[0]` are the two failing branches. -/
def Service.Update (s : Service) (newConfig : List Value) : Service × Option GoError :=
  match newConfig with
  | [v] =>
    match v with
    | .config c => ({ s with configValue := c }, none)
    | _ => (s, some (GoError.expectedType v.typeName))
  | _ => (s, some (GoError.expectedOne newConfig.length))

/-- The method `Service.TestOptions`. -/
def Service.TestOptions (s : Service) : Value :=
  let c := s.config
  Value.testOptionsPtr { Message := "test dingtalk message", AccessToken := c.AccessToken }

/-! ## The libraries `Send` calls -/

/-- The bytes of the UTF-8 form of a character. -/
def utf8Bytes (c : Char) : List Nat :=
  let n := c.toNat
  if n < 0x80 then [n]
  else if n < 0x800 then [0xC0 + n / 64, 0x80 + n % 64]
  else if n < 0x10000 then [0xE0 + n / 4096, 0x80 + n / 64 % 64, 0x80 + n % 64]
  else [0xF0 + n / 262144, 0x80 + n / 4096 % 64, 0x80 + n / 64 % 64, 0x80 + n % 64]

/-- The constant `upperhex` of `net/url`. -/
def upperhex : List Char := "0123456789ABCDEF".data

/-- The characters `shouldEscape` of `net/url` leaves alone in a query component: the
unreserved ones, letters, digits and `-`, `_`, `.`, `~`. -/
def isUnreserved (c : Char) : Bool :=
  let n := c.toNat
  ('a'.toNat ≤ n && n ≤ 'z'.toNat) || ('A'.toNat ≤ n && n ≤ 'Z'.toNat)
    || ('0'.toNat ≤ n && n ≤ '9'.toNat)
    || c = '-' || c = '_' || c = '.' || c = '~'

/-- What `escape` of `net/url` writes for one character in the mode
`encodeQueryComponent`: a space becomes `+`, every other byte that `shouldEscape`
names becomes `%XX`. -/
def escapeChar (c : Char) : List Char :=
  if c = ' ' then ['+']
  else if isUnreserved c then [c]
  else (utf8Bytes c).flatMap fun b => ['%', upperhex.getD (b / 16) '0', upperhex.getD (b % 16) '0']

/-- The function `url.QueryEscape`. -/
def QueryEscape (s : String) : String :=
  String.mk (s.data.flatMap escapeChar)

/-- The type `url.Values`: the values of each key, the keys in ascending order (the
order in which `Encode` writes them). -/
abbrev Values := List (String × List String)

/-- The method `Values.Add`: the value is appended to those of the key. -/
def Values.Add : Values → String → String → Values
  | [], key, value => [(key, [value])]
  | (k, vs) :: rest, key, value =>
    if k = key then (k, vs ++ [value]) :: rest
    else if key < k then (key, [value]) :: (k, vs) :: rest
    else (k, vs) :: Values.Add rest key value

/-- The method `Values.Encode`: `key=value` for every value, both escaped, joined by `&`. -/
def Values.Encode (v : Values) : String :=
  "&".intercalate
    (v.flatMap fun kv => kv.2.map fun x => QueryEscape kv.1 ++ "=" ++ QueryEscape x)

/-- The constant `hex` of `encoding/json`. -/
def jsonHex : List Char := "0123456789abcdef".data

/-- What the string encoder of `encoding/json` writes for one character, with HTML
escaping on, as `json.Marshal` has it. -/
def encodeChar (c : Char) : List Char :=
  let n := c.toNat
  if c = '"' then ['\\', '"']
  else if c = '\\' then ['\\', '\\']
  else if c = '\n' then ['\\', 'n']
  else if c = '\r' then ['\\', 'r']
  else if c = '\t' then ['\\', 't']
  else if n < 0x20 || c = '<' || c = '>' || c = '&' then
    ['\\', 'u', '0', '0', jsonHex.getD (n / 16) '0', jsonHex.getD (n % 16) '0']
  else if n = 0x2028 || n = 0x2029 then
    ['\\', 'u', '2', '0', '2', jsonHex.getD (n % 16) '0']
  else [c]

/-- The JSON text of a Go string: quoted, its characters escaped. -/
def encodeString (s : String) : String :=
  "\"" ++ String.mk (s.data.flatMap encodeChar) ++ "\""

/-- The `MessageText` struct. -/
structure MessageText where
  Content : String
deriving DecidableEq, Repr

/-- The `Message` struct. -/
structure Message where
  Msgtype : String
  Text : MessageText
deriving DecidableEq, Repr

/-- The `Response` struct, the body of a webhook answer. -/
structure Response where
  ErrMsg : String
  ErrCode : Int
deriving DecidableEq, Repr

/-- The function `json.Marshal` on a `Message`: the fields in the order of the struct,
under the names of their `json` tags. It has no failing case on this type. -/
def Marshal (ml : Message) : String :=
  "\x7b\"msgtype\":" ++ encodeString ml.Msgtype ++ ",\"text\":\x7b\"content\":"
    ++ encodeString ml.Text.Content ++ "\x7d\x7d"

/-- The function `json.Unmarshal` into a fresh `Response`. On the empty input it fails
with `unexpected end of JSON input`; on any other input it is the argument `decode`. -/
def Unmarshal (decode : String → Except String Response) (data : String) :
    Except String Response :=
  if data = "" then Except.error "unexpected end of JSON input" else decode data

/-- An `http.Request`, by what `Send` sets of it. -/
structure HttpRequest where
  Method : String
  URL : String
  Header : List (String × String)
  Body : String
deriving DecidableEq, Repr

/-- The bytes `url.Parse` refuses anywhere in a URL: ASCII control characters. -/
def isCTL (c : Char) : Bool :=
  c.toNat < ' '.toNat || c.toNat = 0x7f

/-- The function `http.NewRequest`, for a valid method such as `POST` and a URL that
starts with `DefaultDingtalkURL` followed by `?`: parsing the URL fails when it holds
a control character. -/
def NewRequest (method url body : String) : Except GoError HttpRequest :=
  if url.data.any isCTL then
    Except.error (GoError.lib "net/url: invalid control character in URL")
  else
    Except.ok { Method := method, URL := url, Header := [], Body := body }

/-- The method `Header.Set`: the value replaces those the key had. -/
def HttpRequest.setHeader (req : HttpRequest) (key value : String) : HttpRequest :=
  { req with Header := (req.Header.filter fun kv => kv.1 != key) ++ [(key, value)] }

/-- The body of an HTTP response, as a reader: the bytes not read yet and how the
stream ends, at end of file (`none`) or with a read error of the library, known by its
message. The end is sticky: a reader that has reported it reports it again. -/
structure BodyReader where
  pending : String
  fail : Option String
deriving DecidableEq, Repr

/-- The function `ioutil.ReadAll`: what was read, the error, and the reader afterwards.
All pending bytes are consumed. -/
def ReadAll (b : BodyReader) : String × Option GoError × BodyReader :=
  (b.pending, b.fail.map GoError.lib, { pending := "", fail := b.fail })

/-- An `http.Response`, by what `Send` reads of it. -/
structure HttpResponse where
  StatusCode : Int
  Body : BodyReader
deriving DecidableEq, Repr

/-- The constant `http.StatusOK`. -/
def StatusOK : Int := 200

/-- The two results of `http.DefaultClient.Do`: a `*http.Response`, nil or not, and an error. -/
structure DoResult where
  resp : Option HttpResponse
  err : Option GoError
deriving DecidableEq, Repr

/-- What a call does to the outside world. -/
inductive Event where
  /-- A line given to the package `log`. -/
  | log (line : String)
  /-- A call of `http.DefaultClient.Do`. -/
  | httpDo (req : HttpRequest)
  /-- The deferred `resp.Body.Close()`. -/
  | bodyClose
  /-- A call of the method `Error` of a `Diagnostic`. -/
  | diagError (d : Diagnostic) (msg : String) (err : GoError)
deriving DecidableEq, Repr

/-- How a call ends: it returns a value, or it panics. -/
inductive Outcome (α : Type) where
  | ret (a : α)
  | panic (msg : String)
deriving DecidableEq, Repr

/-- A finished call: its events in order, and how it ended. -/
structure Run (α : Type) where
  trace : List Event
  out : Outcome α
deriving DecidableEq, Repr

/-- The panic of the Go runtime on a nil pointer. -/
def nilDereference : String :=
  "runtime error: invalid memory address or nil pointer dereference"

/-- The requests a run has sent. -/
def posts : List Event → List HttpRequest
  | [] => []
  | Event.httpDo req :: t => req :: posts t
  | _ :: t => posts t

/-- The errors a run has reported to a `Diagnostic`. -/
def diagErrors : List Event → List GoError
  | [] => []
  | Event.diagError _ _ err :: t => err :: diagErrors t
  | _ :: t => diagErrors t

/-! ## service.go: sending -/

/-- The method `Service.Send`.

`client` is `http.DefaultClient.Do`, `decode` is the JSON decoder (see `Unmarshal`).
The errors of `json.Marshal`, of `http.NewRequest`, of the client and of the first
`ioutil.ReadAll` are not returned: the first is dropped, the next two are logged, the
last is overwritten. After a failed `http.NewRequest` the request is nil and
`req.Header.Set` panics; after a client call without a response `resp` is nil and
`defer resp.Body.Close()` panics. -/
def Service.Send (client : HttpRequest → DoResult) (decode : String → Except String Response)
    (s : Service) (message : String) : Run (Option GoError) :=
  let c := s.config
  let accessToken := c.AccessToken
  let v := Values.Add [] "access_token" accessToken
  let sendUrl := DefaultDingtalkURL ++ "?" ++ Values.Encode v
  let mt : MessageText := { Content := message }
  let ml : Message := { Msgtype := "text", Text := mt }
  let body := Marshal ml
  match NewRequest "POST" sendUrl body with
  | Except.error err =>
    { trace := [Event.log ("failed to create POST request: " ++ err.Error)],
      out := Outcome.panic nilDereference }
  | Except.ok req0 =>
    let req := req0.setHeader "Content-Type" "application/json;charset=utf-8"
    let r := client req
    let t1 := Event.httpDo req ::
      (match r.err with
       | some err => [Event.log ("failed to POST alert data: " ++ err.Error)]
       | none => [])
    match r.resp with
    | none => { trace := t1, out := Outcome.panic nilDereference }
    | some resp =>
      let (response, _, rest) := ReadAll resp.Body
      let t2 := t1 ++ [Event.log response]
      if resp.StatusCode ≠ StatusOK then
        let (body, err, _) := ReadAll rest
        match err with
        | some e => { trace := t2 ++ [Event.bodyClose], out := Outcome.ret (some e) }
        | none =>
          match Unmarshal decode body with
          | Except.error e =>
            { trace := t2 ++ [Event.bodyClose],
              out := Outcome.ret (some (GoError.understand e resp.StatusCode body)) }
          | Except.ok res =>
            { trace := t2 ++ [Event.bodyClose],
              out := Outcome.ret (some (GoError.sendMessage res.ErrCode res.ErrMsg)) }
      else
        { trace := t2 ++ [Event.bodyClose], out := Outcome.ret none }

/-- The method `Service.Test`. -/
def Service.Test (client : HttpRequest → DoResult) (decode : String → Except String Response)
    (s : Service) (options : Value) : Run (Option GoError) :=
  match options with
  | Value.testOptionsPtr o => s.Send client decode o.Message
  | _ => { trace := [], out := Outcome.ret (some (GoError.unexpectedOptions options.typeName)) }

/-! ## service.go: the alert handler -/

/-- The `HandlerConfig` struct. -/
structure HandlerConfig where
  AccessToken : String
deriving DecidableEq, Repr

/-- The `handler` struct. Its field `s` is a pointer to the service: `Handle` is given
the state of the service at the time of the call. -/
structure handler where
  c : HandlerConfig
  diag : Diagnostic
deriving DecidableEq, Repr

/-- The method `Service.Handler`. -/
def Service.Handler (s : Service) (c : HandlerConfig) (ctx : List KV) : handler :=
  { c := c, diag := s.diag.WithContext ctx }

/-- The `alert.EventState` struct, by the field `Handle` reads. -/
structure EventState where
  Message : String
deriving DecidableEq, Repr

/-- The `alert.Event` struct, by the field `Handle` reads. -/
structure AlertEvent where
  State : EventState
deriving DecidableEq, Repr

/-- The method `handler.Handle`, on the service `s` that `h.s` points to. It has no
`recover`: a panic of `Send` goes on to the caller. -/
def handler.Handle (client : HttpRequest → DoResult) (decode : String → Except String Response)
    (h : handler) (s : Service) (event : AlertEvent) : Run Unit :=
  let r := s.Send client decode event.State.Message
  match r.out with
  | Outcome.ret (some err) =>
    { trace := r.trace ++ [Event.diagError h.diag "failed to send event to Dingtalk" err],
      out := Outcome.ret () }
  | Outcome.ret none => { trace := r.trace, out := Outcome.ret () }
  | Outcome.panic p => { trace := r.trace, out := Outcome.panic p }

/-! ## Sample inputs -/

/-- A service with a token of the kind the webhook hands out. -/
def exampleService : Service :=
  NewService { Enabled := true, AccessToken := "25399487955846cad9176d62" } { ctx := [] }

/-- A service whose token holds characters `QueryEscape` rewrites. -/
def base64Service : Service :=
  NewService { Enabled := true, AccessToken := "ab+c/d=" } { ctx := [] }

/-- A client whose every call gets a response with the given status and body. -/
def answer (code : Int) (body : String) : HttpRequest → DoResult :=
  fun _ => { resp := some { StatusCode := code, Body := { pending := body, fail := none } },
             err := none }

/-- A client whose every call fails in the transport: no response, an error. -/
def refuse : HttpRequest → DoResult :=
  fun _ => { resp := none, err := some (GoError.lib "dial tcp: connect: connection refused") }

/-- The body of the webhook's answer to an invalid token. -/
def tokenInvalidBody : String := "\x7b\"errcode\":300,\"errmsg\":\"token invalid\"\x7d"

/-- A decoder that understands `tokenInvalidBody` and nothing else. -/
def decodeExample : String → Except String Response :=
  fun data =>
    if data = tokenInvalidBody then Except.ok { ErrMsg := "token invalid", ErrCode := 300 }
    else Except.error "invalid character"

/-! ## The request `Send` builds -/

theorem isCTL_getD_upperhex (i : Nat) : isCTL (upperhex.getD i '0') = false := by
  have hall : ∀ y ∈ '0' :: upperhex, isCTL y = false := by decide
  apply hall
  rcases Nat.lt_or_ge i upperhex.length with h | h
  · rw [List.getD_eq_getElem _ _ h]
    exact List.mem_cons_of_mem _ (List.getElem_mem h)
  · rw [List.getD_eq_default _ _ h]
    exact List.mem_cons_self _ _

theorem isCTL_of_isUnreserved (c : Char) (h : isUnreserved c = true) : isCTL c = false := by
  have toNat_of_eq : ∀ d : Char, c = d → c.toNat = d.toNat := fun d hd => congrArg Char.toNat hd
  simp only [isUnreserved, Bool.or_eq_true, Bool.and_eq_true, decide_eq_true_eq] at h
  simp only [isCTL, Bool.or_eq_false_iff, decide_eq_false_iff_not]
  rcases h with (((((h | h) | h) | h) | h) | h) | h
  all_goals first
    | (have hn := toNat_of_eq _ h; simp only [Char.reduceToNat] at hn ⊢; omega)
    | (simp only [Char.reduceToNat] at h ⊢; omega)

theorem isCTL_escapeChar (c x : Char) (hx : x ∈ escapeChar c) : isCTL x = false := by
  unfold escapeChar at hx
  split at hx
  · simp only [List.mem_singleton] at hx
    subst hx
    decide
  · split at hx
    · rename_i hu
      simp only [List.mem_singleton] at hx
      subst hx
      exact isCTL_of_isUnreserved _ hu
    · simp only [List.mem_flatMap, List.mem_cons, List.mem_singleton, List.not_mem_nil,
        or_false] at hx
      obtain ⟨b, -, hb⟩ := hx
      rcases hb with hb | hb | hb
      · subst hb
        decide
      · subst hb
        exact isCTL_getD_upperhex _
      · subst hb
        exact isCTL_getD_upperhex _

theorem any_isCTL_QueryEscape (s : String) : (QueryEscape s).data.any isCTL = false := by
  simp only [QueryEscape, List.any_eq_false, List.mem_flatMap]
  rintro x ⟨c, -, hx⟩
  simp [isCTL_escapeChar c x hx]

theorem escapeChar_of_isUnreserved (c : Char) (h : isUnreserved c = true) :
    escapeChar c = [c] := by
  unfold escapeChar
  have hsp : c ≠ ' ' := by
    rintro rfl
    revert h
    decide
  simp [hsp, h]

theorem QueryEscape_of_all_isUnreserved (s : String) (h : s.data.all isUnreserved = true) :
    QueryEscape s = s := by
  have key : ∀ l : List Char, l.all isUnreserved = true → l.flatMap escapeChar = l := by
    intro l
    induction l with
    | nil => intro _; rfl
    | cons c t ih =>
      intro hl
      simp only [List.all_cons, Bool.and_eq_true] at hl
      simp [List.flatMap_cons, escapeChar_of_isUnreserved c hl.1, ih hl.2]
  simp only [QueryEscape, key s.data h]

theorem Encode_access_token (token : String) :
    Values.Encode (Values.Add [] "access_token" token) = "access_token=" ++ QueryEscape token := by
  have h : QueryEscape "access_token" = "access_token" := by decide
  simp only [Values.Add, Values.Encode, List.flatMap_cons, List.flatMap_nil, List.map_cons,
    List.map_nil, List.append_nil, String.intercalate, String.intercalate.go, h]
  apply String.ext
  simp [String.data_append]

theorem NewRequest_sendUrl (token body : String) :
    NewRequest "POST"
        (DefaultDingtalkURL ++ "?" ++ Values.Encode (Values.Add [] "access_token" token)) body
      = Except.ok { Method := "POST",
                    URL := DefaultDingtalkURL ++ "?access_token=" ++ QueryEscape token,
                    Header := [], Body := body } := by
  have hurl : DefaultDingtalkURL ++ "?" ++ ("access_token=" ++ QueryEscape token)
      = DefaultDingtalkURL ++ "?access_token=" ++ QueryEscape token := by
    apply String.ext
    simp [String.data_append]
  have hconst : (DefaultDingtalkURL ++ "?access_token=").data.any isCTL = false := by decide
  have hctl : (DefaultDingtalkURL ++ "?access_token=" ++ QueryEscape token).data.any isCTL
      = false := by
    rw [String.data_append, List.any_append, hconst, any_isCTL_QueryEscape]
    rfl
  rw [Encode_access_token, hurl]
  simp only [NewRequest, hctl, Bool.false_eq_true, if_false]

theorem Marshal_text (message : String) :
    Marshal { Msgtype := "text", Text := { Content := message } }
      = "\x7b\"msgtype\":\"text\",\"text\":\x7b\"content\":" ++ encodeString message
          ++ "\x7d\x7d" := by
  have h : encodeString "text" = "\"text\"" := by decide
  simp only [Marshal, h]
  apply String.ext
  simp [String.data_append]

theorem posts_append (a b : List Event) : posts (a ++ b) = posts a ++ posts b := by
  induction a with
  | nil => rfl
  | cons e t ih => cases e <;> simp [posts, ih]

theorem diagErrors_append (a b : List Event) :
    diagErrors (a ++ b) = diagErrors a ++ diagErrors b := by
  induction a with
  | nil => rfl
  | cons e t ih => cases e <;> simp [diagErrors, ih]

/-- Whatever the client answers, `Send` hands it one request, the same for every answer. -/
theorem posts_Send (client : HttpRequest → DoResult) (decode : String → Except String Response)
    (s : Service) (message : String) :
    posts (s.Send client decode message).trace =
      [{ Method := "POST",
         URL := DefaultDingtalkURL ++ "?access_token=" ++ QueryEscape s.config.AccessToken,
         Header := [("Content-Type", "application/json;charset=utf-8")],
         Body := "\x7b\"msgtype\":\"text\",\"text\":\x7b\"content\":" ++ encodeString message
           ++ "\x7d\x7d" }] := by
  simp only [Service.Send, NewRequest_sendUrl, Marshal_text, ReadAll]
  generalize client _ = r
  rcases r with ⟨_ | resp, _ | err⟩
  all_goals simp only [posts, posts_append, HttpRequest.setHeader, List.filter_nil, List.nil_append]
  all_goals
    first
    | rfl
    | (split
       · split
         · simp [posts, posts_append]
         · split <;> simp [posts, posts_append]
       · simp [posts, posts_append])

/-! ## What `Send` returns -/

theorem diagErrors_Send (client : HttpRequest → DoResult)
    (decode : String → Except String Response) (s : Service) (message : String) :
    diagErrors (s.Send client decode message).trace = [] := by
  simp only [Service.Send, NewRequest_sendUrl, Marshal_text, ReadAll, Unmarshal]
  generalize client _ = r
  rcases r with ⟨_ | resp, _ | err⟩
  · rfl
  · rfl
  · by_cases hc : resp.StatusCode = StatusOK
    · simp [hc, diagErrors, diagErrors_append]
    · rcases hb : resp.Body.fail with _ | e <;> simp [hc, hb, diagErrors, diagErrors_append]
  · by_cases hc : resp.StatusCode = StatusOK
    · simp [hc, diagErrors, diagErrors_append]
    · rcases hb : resp.Body.fail with _ | e <;> simp [hc, hb, diagErrors, diagErrors_append]

/-- Without a response `Send` panics, whether the client reports an error or not. -/
theorem Send_out_of_no_response (client : HttpRequest → DoResult)
    (decode : String → Except String Response) (s : Service) (message : String)
    (h : ∀ req, (client req).resp = none) :
    (s.Send client decode message).out = Outcome.panic nilDereference := by
  simp only [Service.Send, NewRequest_sendUrl, Marshal_text, ReadAll, h]

/-- On a status other than 200, with a body that ends at end of file, the second
`ReadAll` finds nothing left: `Send` returns the error of decoding the empty input. -/
theorem Send_out_of_not_ok (client : HttpRequest → DoResult)
    (decode : String → Except String Response) (s : Service) (message : String)
    (resp : HttpResponse) (h : ∀ req, (client req).resp = some resp)
    (hcode : resp.StatusCode ≠ StatusOK) (hbody : resp.Body.fail = none) :
    (s.Send client decode message).out
      = Outcome.ret (some (GoError.understand "unexpected end of JSON input"
          resp.StatusCode "")) := by
  simp only [Service.Send, NewRequest_sendUrl, Marshal_text, ReadAll, h, hbody, Unmarshal]
  simp [hcode]

/-- On a status other than 200, with a body whose reading fails, `Send` returns the
read error. -/
theorem Send_out_of_read_error (client : HttpRequest → DoResult)
    (decode : String → Except String Response) (s : Service) (message : String)
    (resp : HttpResponse) (e : String) (h : ∀ req, (client req).resp = some resp)
    (hcode : resp.StatusCode ≠ StatusOK) (hbody : resp.Body.fail = some e) :
    (s.Send client decode message).out = Outcome.ret (some (GoError.lib e)) := by
  simp only [Service.Send, NewRequest_sendUrl, Marshal_text, ReadAll, h, hbody]
  simp [hcode]

/-- Whatever the client answers, `Send` never returns the error of the form
`sendMessage error (...) description: ...`. -/
theorem Send_out_ne_sendMessage (client : HttpRequest → DoResult)
    (decode : String → Except String Response) (s : Service) (message : String)
    (errCode : Int) (errMsg : String) :
    (s.Send client decode message).out
      ≠ Outcome.ret (some (GoError.sendMessage errCode errMsg)) := by
  simp only [Service.Send, NewRequest_sendUrl, Marshal_text, ReadAll, Unmarshal]
  generalize client _ = r
  rcases r with ⟨_ | resp, _ | err⟩
  · simp
  · simp
  · by_cases hc : resp.StatusCode = StatusOK
    · simp [hc]
    · rcases hb : resp.Body.fail with _ | e <;> simp [hc, hb]
  · by_cases hc : resp.StatusCode = StatusOK
    · simp [hc]
    · rcases hb : resp.Body.fail with _ | e <;> simp [hc, hb]

/-- With status 200 `Send` returns nil: the body and the error of reading it are not
looked at. -/
theorem Send_out_of_ok (client : HttpRequest → DoResult)
    (decode : String → Except String Response) (s : Service) (message : String)
    (h : ∀ req, ∃ resp, (client req).resp = some resp ∧ resp.StatusCode = StatusOK) :
    (s.Send client decode message).out = Outcome.ret none := by
  simp only [Service.Send, NewRequest_sendUrl, Marshal_text, ReadAll]
  generalize HttpRequest.setHeader _ _ _ = req
  obtain ⟨resp, h1, h2⟩ := h req
  simp [h1, h2]

/-! ## What `Handle` does with the result of `Send` -/

theorem Handle_of_Send_error (client : HttpRequest → DoResult)
    (decode : String → Except String Response) (h : handler) (s : Service)
    (event : AlertEvent) (err : GoError)
    (hs : (s.Send client decode event.State.Message).out = Outcome.ret (some err)) :
    (h.Handle client decode s event).out = Outcome.ret ()
      ∧ diagErrors (h.Handle client decode s event).trace = [err] := by
  simp [handler.Handle, hs, diagErrors_append, diagErrors_Send, diagErrors]

theorem Handle_of_Send_nil (client : HttpRequest → DoResult)
    (decode : String → Except String Response) (h : handler) (s : Service)
    (event : AlertEvent)
    (hs : (s.Send client decode event.State.Message).out = Outcome.ret none) :
    (h.Handle client decode s event).out = Outcome.ret ()
      ∧ diagErrors (h.Handle client decode s event).trace = [] := by
  simp [handler.Handle, hs, diagErrors_Send]

theorem Handle_of_Send_panic (client : HttpRequest → DoResult)
    (decode : String → Except String Response) (h : handler) (s : Service)
    (event : AlertEvent) (p : String)
    (hs : (s.Send client decode event.State.Message).out = Outcome.panic p) :
    (h.Handle client decode s event).out = Outcome.panic p
      ∧ diagErrors (h.Handle client decode s event).trace = [] := by
  simp [handler.Handle, hs, diagErrors_Send]

/-! ## The claims -/

/-- C1: `Validate` returns the error `must specify token` exactly when the configuration
is enabled and its token is empty, and nil exactly in every other case. -/
theorem Validate_error_iff (c : Config) :
    (c.Validate = some (GoError.lib "must specify token")
        ↔ (c.Enabled = true ∧ c.AccessToken = ""))
      ∧ (c.Validate = none ↔ ¬ (c.Enabled = true ∧ c.AccessToken = "")) := by
  rcases c with ⟨enabled, token⟩
  cases enabled <;> by_cases ht : token = "" <;> simp [Config.Validate, ht]

/-- C2, the code at the failing input: the answer has status 400 and the body
`{"errcode":300,"errmsg":"token invalid"}`, which the decoder reads as code 300 and
message `token invalid`; `Send` returns the error of decoding an empty body, with an
empty content, and not the error that carries 300 and `token invalid`. -/
theorem Send_remote_error_lost :
    decodeExample tokenInvalidBody = Except.ok { ErrMsg := "token invalid", ErrCode := 300 }
      ∧ (exampleService.Send (answer 400 tokenInvalidBody) decodeExample "hello").out
          = Outcome.ret (some (GoError.understand "unexpected end of JSON input" 400 ""))
      ∧ (exampleService.Send (answer 400 tokenInvalidBody) decodeExample "hello").out
          ≠ Outcome.ret (some (GoError.sendMessage 300 "token invalid")) :=
  ⟨rfl, by decide, by decide⟩

/-- C3, the code at the failing input: the answer has status 400 and the body `oops`,
which the decoder rejects; the error `Send` returns carries the status 400 and the
empty string as content, not the body `oops`. -/
theorem Send_raw_body_lost :
    decodeExample "oops" = Except.error "invalid character"
      ∧ (exampleService.Send (answer 400 "oops") decodeExample "hello").out
          = Outcome.ret (some (GoError.understand "unexpected end of JSON input" 400 ""))
      ∧ ∀ e, (exampleService.Send (answer 400 "oops") decodeExample "hello").out
          ≠ Outcome.ret (some (GoError.understand e 400 "oops")) := by
  have h : (exampleService.Send (answer 400 "oops") decodeExample "hello").out
      = Outcome.ret (some (GoError.understand "unexpected end of JSON input" 400 "")) := by
    decide
  refine ⟨rfl, h, fun e => ?_⟩
  rw [h]
  simp

/-- C4, the code at the failing input: the client returns no response and the error
`connection refused`; `Send` calls the client once, logs the error and then panics on
the nil response: it returns nothing to its caller. -/
theorem Send_transport_failure_panics :
    (exampleService.Send refuse decodeExample "hello").out = Outcome.panic nilDereference
      ∧ (posts (exampleService.Send refuse decodeExample "hello").trace).length = 1
      ∧ Event.log "failed to POST alert data: dial tcp: connect: connection refused"
          ∈ (exampleService.Send refuse decodeExample "hello").trace := by
  decide

/-- C5: when the client answers every request with a response of status 200, `Send`
returns nil, for every message, every body and every way the reading of the body ends. -/
theorem Send_status_ok (client : HttpRequest → DoResult)
    (decode : String → Except String Response) (s : Service) (message : String)
    (h : ∀ req, ∃ resp, (client req).resp = some resp ∧ resp.StatusCode = 200) :
    (s.Send client decode message).out = Outcome.ret none :=
  Send_out_of_ok client decode s message h

/-- Witness of C5: status 200 with the body of a well-formed error object. -/
theorem Send_status_ok_witness :
    (∀ req, ∃ resp, (answer 200 tokenInvalidBody req).resp = some resp ∧ resp.StatusCode = 200)
      ∧ (exampleService.Send (answer 200 tokenInvalidBody) decodeExample "hello").out
          = Outcome.ret none :=
  ⟨fun _ => ⟨_, rfl, rfl⟩,
   Send_status_ok (answer 200 tokenInvalidBody) decodeExample exampleService "hello"
     (fun _ => ⟨_, rfl, rfl⟩)⟩

/-- C6 as stated fails: with the token `ab+c/d=` the URL of the request is not the base
followed by `?access_token=` and the token; the token is written `ab%2Bc%2Fd%3D`. -/
theorem Send_url_literal_token_counterexample :
    (posts (base64Service.Send (answer 200 "") decodeExample "hello").trace).map HttpRequest.URL
        = ["https://oapi.dingtalk.com/robot/send?access_token=ab%2Bc%2Fd%3D"]
      ∧ (posts (base64Service.Send (answer 200 "") decodeExample "hello").trace).map
            HttpRequest.URL
          ≠ [DefaultDingtalkURL ++ "?access_token=" ++ base64Service.config.AccessToken] := by
  decide

/-- C6 amended: for every stored configuration, every message and every behaviour of the
client, `Send` hands the client exactly one request: a POST whose URL is the base
followed by `?access_token=` and the query-escaped token of the stored configuration,
whose only header is `Content-Type: application/json;charset=utf-8`, and whose body is
the JSON object with `msgtype` `text` and, under `text`, `content` the message as a JSON
string. The escaped token is the token itself when all its characters are letters,
digits, `-`, `_`, `.` or `~`. -/
theorem Send_posts_once (client : HttpRequest → DoResult)
    (decode : String → Except String Response) (s : Service) (message : String) :
    posts (s.Send client decode message).trace =
        [{ Method := "POST",
           URL := DefaultDingtalkURL ++ "?access_token=" ++ QueryEscape s.config.AccessToken,
           Header := [("Content-Type", "application/json;charset=utf-8")],
           Body := "\x7b\"msgtype\":\"text\",\"text\":\x7b\"content\":" ++ encodeString message
             ++ "\x7d\x7d" }]
      ∧ (s.config.AccessToken.data.all isUnreserved = true
          → QueryEscape s.config.AccessToken = s.config.AccessToken) :=
  ⟨posts_Send client decode s message, QueryEscape_of_all_isUnreserved _⟩

/-- Witness of C6 amended: the request for the message `hello` under a token of letters
and digits. -/
theorem Send_posts_once_witness :
    exampleService.config.AccessToken.data.all isUnreserved = true
      ∧ QueryEscape exampleService.config.AccessToken = exampleService.config.AccessToken
      ∧ posts (exampleService.Send refuse decodeExample "hello").trace =
          [{ Method := "POST",
             URL := "https://oapi.dingtalk.com/robot/send?access_token=25399487955846cad9176d62",
             Header := [("Content-Type", "application/json;charset=utf-8")],
             Body := "\x7b\"msgtype\":\"text\",\"text\":\x7b\"content\":\"hello\"\x7d\x7d" }] :=
  ⟨by decide,
   (Send_posts_once refuse decodeExample exampleService "hello").2 (by decide),
   (Send_posts_once refuse decodeExample exampleService "hello").1.trans (by decide)⟩

/-- C7: when the batch is not exactly one `Config`, `Update` returns an error and the
stored configuration is the one from before the call. -/
theorem Update_rejects (s : Service) (batch : List Value)
    (h : ∀ c, batch ≠ [Value.config c]) :
    (s.Update batch).2 ≠ none ∧ (s.Update batch).1.config = s.config := by
  unfold Service.Update
  split
  · rename_i v
    split
    · rename_i c
      exact absurd rfl (h c)
    · simp
  · simp

/-- Witness of C7: the empty batch, against a service made by `NewService`. -/
theorem Update_rejects_witness :
    (∀ c, ([] : List Value) ≠ [Value.config c])
      ∧ (exampleService.Update []).2 ≠ none
      ∧ (exampleService.Update []).1.config = exampleService.config :=
  ⟨fun _ => List.noConfusion, Update_rejects exampleService [] (fun _ => List.noConfusion)⟩

/-- C8: for every `Config`, valid or not, `Update` with the batch of that one value
returns nil and the stored configuration becomes that value, both fields together; this
holds from every state, the one `NewService` makes included. -/
theorem Update_stores (s : Service) (c : Config) :
    (s.Update [Value.config c]).2 = none
      ∧ (s.Update [Value.config c]).1.config = c
      ∧ (s.Update [Value.config c]).1.diag = s.diag
      ∧ ∀ c0 d, ((NewService c0 d).Update [Value.config c]).1.config = c :=
  ⟨rfl, rfl, rfl, fun _ _ => rfl⟩

/-- C9, the code at the failing input: the client returns no response and the error
`connection refused`; `Send` panics, `Handle` has no `recover`, so the panic goes on to
the caller of `Handle`, and `Error` of the diagnostic is not called. -/
theorem Handle_transport_failure_panics :
    ((exampleService.Handler { AccessToken := "" } []).Handle refuse decodeExample
        exampleService { State := { Message := "hello" } }).out
        = Outcome.panic nilDereference
      ∧ diagErrors ((exampleService.Handler { AccessToken := "" } []).Handle refuse
          decodeExample exampleService { State := { Message := "hello" } }).trace = [] := by
  decide

/-- C10: on a value that is not a `*testOptions`, `Test` returns the type error and does
nothing else (no request, no event at all); on a `*testOptions` it is `Send` of the
message of the payload, and the request carries the token of the stored configuration,
whatever the token of the payload. -/
theorem Test_spec (client : HttpRequest → DoResult)
    (decode : String → Except String Response) (s : Service) (options : Value) :
    ((∀ o, options ≠ Value.testOptionsPtr o) →
        s.Test client decode options
          = { trace := [], out := Outcome.ret (some (GoError.unexpectedOptions options.typeName)) })
      ∧ (∀ o, options = Value.testOptionsPtr o →
          s.Test client decode options = s.Send client decode o.Message
            ∧ (posts (s.Test client decode options).trace).map HttpRequest.URL
                = [DefaultDingtalkURL ++ "?access_token=" ++ QueryEscape s.config.AccessToken]) := by
  constructor
  · intro h
    cases options with
    | testOptionsPtr o => exact absurd rfl (h o)
    | config c => rfl
    | other t => rfl
  · rintro o rfl
    refine ⟨rfl, ?_⟩
    show (posts (s.Send client decode o.Message).trace).map HttpRequest.URL = _
    rw [posts_Send]
    rfl

/-- Witness of C10: a string is refused without a request; a payload with the token
`other` is sent under the stored token. -/
theorem Test_spec_witness :
    (∀ o, Value.other "string" ≠ Value.testOptionsPtr o)
      ∧ exampleService.Test (answer 200 "") decodeExample (Value.other "string")
          = { trace := [], out := Outcome.ret (some (GoError.unexpectedOptions "string")) }
      ∧ exampleService.Test (answer 200 "") decodeExample
            (Value.testOptionsPtr { Message := "hello", AccessToken := "other" })
          = exampleService.Send (answer 200 "") decodeExample "hello" :=
  ⟨fun _ => Value.noConfusion,
   (Test_spec (answer 200 "") decodeExample exampleService (Value.other "string")).1
     (fun _ => Value.noConfusion),
   ((Test_spec (answer 200 "") decodeExample exampleService
      (Value.testOptionsPtr { Message := "hello", AccessToken := "other" })).2 _ rfl).1⟩

end Dingtalk
